import Mathlib

/-!
Shallow embedding of `requirements_version_locker.py` (class `Package` and
class `RequirementsVersionLocker`).

Modelling choices, all taken from the source:

* Python strings are Lean `String`s; the machine-level filesystem is a map
  from path strings to optional file contents (`none` = file absent).
* The configuration dictionary is an insertion-ordered association list
  `List (String × ConfigValue)`; `dict.get` is `configGet`, Python
  truthiness of a looked-up value is `truthy`, and `str(value)` is `pyStr`.
* `pkg_resources.parse_requirements` is external to the repository, so the
  parser is a parameter `parse : String → Option (List Requirement)`;
  `none` models any exception raised while reading/parsing, which
  `get_required_packages` swallows and turns into `None` (source lines 84-95).
  A parsed requirement carries `name` and the `specs` list of
  (operator, version) pairs, exactly the two fields the source reads.
* The PyPI endpoint is a parameter `api : String → String → ApiResponse`:
  `netFail` models `urlopen`/`json.load` raising (re-raised at line 116),
  `ok none` models a JSON object without the `"urls"` key (line 121-125),
  and `ok (some artifacts)` gives, per artifact, the value of
  `source["digests"]["sha256"]` (`none` = one of those two keys missing,
  i.e. the unguarded lookup at line 129 raises `KeyError`).
* `datetime.now().isoformat()` is a parameter `now : String`.
* The output file is opened with mode `'w'` (truncate-on-open, line 177) and
  then written by one `write` call for the header, one per package and one
  for the footer.  `budget` models the I/O environment: `none` = every
  `write` succeeds, `some k` = the OS raises an `IOError` on the (k+1)-th
  `write` call, leaving the k first chunks in the file.
* Uncaught Python exceptions escaping `run` are explicit `RunResult`
  constructors (`valueError`, `keyError`, `typeError`, `indexError`);
  the `int` returned on a normal exit is `RunResult.exit`.
  `errno.ENOENT = 2`, `errno.EEXIST = 17`, `errno.EIO = 5`.
-/

/-- Values stored in the configuration dictionary (the CLI stores only
booleans and strings, source lines 279-284). -/
inductive ConfigValue where
  | vBool : Bool → ConfigValue
  | vStr : String → ConfigValue
deriving DecidableEq

/-- The `app_config` dictionary: insertion-ordered key/value pairs. -/
abbrev AppConfig := List (String × ConfigValue)

/-- Python truthiness of `self.config(key)` (which returns `None`, i.e.
falsy, when the key is absent). -/
def truthy : Option ConfigValue → Bool
  | none => false
  | some (.vBool b) => b
  | some (.vStr s) => !s.isEmpty

/-- Python `str()` of a configuration value, as interpolated into the
generated header (`f"#\t{key}: {self.__config[key]}\n"`). -/
def pyStr : ConfigValue → String
  | .vBool true => "True"
  | .vBool false => "False"
  | .vStr s => s

/-- Model of `self.__config.get(key)` and of the `key in self.__config.keys()` test:
value of the (unique) matching key of the dict. -/
def configGet : AppConfig → String → Option ConfigValue
  | [], _ => none
  | kv :: rest, key => if kv.1 = key then some kv.2 else configGet rest key

/-- Model of the `key in cfg.keys()` membership test. -/
def hasKey : AppConfig → String → Bool
  | [], _ => false
  | kv :: rest, key => if kv.1 = key then true else hasKey rest key

/-- Python dict assignment `cfg[key] = value`: replaces the value of an
existing key in place, otherwise appends the key at the end. -/
def setKey (cfg : AppConfig) (key : String) (v : ConfigValue) : AppConfig :=
  if hasKey cfg key then
    cfg.map (fun kv => if kv.1 = key then (kv.1, v) else kv)
  else
    cfg ++ [(key, v)]

/-- Model of `RequirementsVersionLocker.__init__` (source lines 55-68): raises
`ValueError('Configuration values not supplied')` when `app_config` is
falsy (the empty dict), otherwise stores the dict. -/
def locker_init (app_config : AppConfig) : Except String AppConfig :=
  if app_config.isEmpty then .error "Configuration values not supplied"
  else .ok app_config

/-- Value of `self.config('verbose_mode', False)` as a boolean (source line 193). -/
def verboseFlag (cfg : AppConfig) : Bool :=
  truthy (configGet cfg "verbose_mode")

/-- Value of `self.config('overwrite_mode', False)` as a boolean (source line 194). -/
def overwriteFlag (cfg : AppConfig) : Bool :=
  truthy (configGet cfg "overwrite_mode")

/-- Value of `self.config('ignore_errors', False)` as a boolean (source line 195). -/
def ignoreFlag (cfg : AppConfig) : Bool :=
  truthy (configGet cfg "ignore_errors")

/-- One requirement as returned by `pkg_resources.parse_requirements`:
the source reads `requirement.name` and the `(operator, version)` pairs
`requirement.specs` (it only ever uses `specs[0][1]`). -/
structure Requirement where
  name : String
  specs : List (String × String)
deriving DecidableEq

/-- Class `Package` (source lines 20-43). -/
structure Package where
  name : String
  version : String
  hashes : List String
deriving DecidableEq, Inhabited

/-- Constant `Package.__newline` (source line 29): a space, a backslash, a newline and four spaces. -/
def packageNewline : String := " \\\n    "

/-- Model of `Package.get_file_lines` (source lines 36-40): starts from
`f'{name}=={version}'` and appends
`f'{__newline}--hash=sha256:{phash}'` for every hash, in order. -/
def Package.get_file_lines (p : Package) : String :=
  p.hashes.foldl (fun acc phash => acc ++ packageNewline ++ "--hash=sha256:" ++ phash)
    (p.name ++ "==" ++ p.version)

/-- The filesystem: maps a path to the content of the file stored there,
`none` when no file exists at that path. -/
abbrev FS := String → Option String

/-- Writing a file: replaces whatever is at `path` by `content`. -/
def setFile (fs : FS) (path content : String) : FS :=
  fun p => if p = path then some content else fs p

/-- Model of `get_required_packages` (source lines 80-99): opens the requirements
file and parses it, returning `None` on any exception (missing file,
unreadable content, parse error).  The external parser is a parameter. -/
def get_required_packages (parse : String → Option (List Requirement))
    (fs : FS) (requirements_file : String) : Option (List Requirement) :=
  match fs requirements_file with
  | none => none
  | some txt => parse txt

/-- What the PyPI JSON endpoint yields for a `(name, version)` query.
`netFail` = `urlopen`/`json.load` raised; `ok urls` = a JSON object whose
`"urls"` member is `urls` (`none` = key absent).  Each artifact entry is
the value of `source["digests"]["sha256"]`, with `none` modelling a
missing `"digests"` or `"sha256"` key. -/
inductive ApiResponse where
  | netFail : ApiResponse
  | ok : Option (List (Option String)) → ApiResponse

/-- The exception classes that can escape `get_package_details_from_api`:
the re-raised transport exception (line 116), `FileNotFoundError` for a
missing `"urls"` key (line 125), the unguarded `KeyError` from
`source["digests"]["sha256"]` (line 129), and `IndexError` for a zero
hash count (line 135). -/
inductive ApiError where
  | networkError : ApiError
  | fileNotFoundError : ApiError
  | keyError : ApiError
  | indexError : ApiError
deriving DecidableEq

/-- The loop at lines 127-129: `for source in data_dict:
hashes.append(source["digests"]["sha256"])`.  Raises `KeyError` at the
first artifact lacking the digest entry, otherwise collects every digest
in order. -/
def collectDigests : List (Option String) → Except Unit (List String)
  | [] => .ok []
  | none :: _ => .error ()
  | some h :: rest => (collectDigests rest).map (fun hs => h :: hs)

/-- Model of `get_package_details_from_api` (source lines 101-137). -/
def get_package_details_from_api (api : String → String → ApiResponse)
    (package_name package_version : String) : Except ApiError Package :=
  match api package_name package_version with
  | .netFail => .error .networkError
  | .ok none => .error .fileNotFoundError
  | .ok (some artifacts) =>
    match collectDigests artifacts with
    | .error _ => .error .keyError
    | .ok hashes =>
      if hashes.length < 1 then .error .indexError
      else .ok ⟨package_name, package_version, hashes⟩

/-- The `#\t{key}: {value}\n` lines of the header, one per configuration
entry in dictionary order (source lines 143-145). -/
def configLines (cfg : AppConfig) : String :=
  cfg.foldl (fun acc kv => acc ++ "#\t" ++ kv.1 ++ ": " ++ pyStr kv.2 ++ "\n") ""

/-- Model of `get_requirements_file_header` (source lines 139-152), with the
`datetime.now().isoformat()` timestamp passed in as `now`. -/
def get_requirements_file_header (cfg : AppConfig) (now : String) : String :=
  "#\n# This file was generated by requirements_version_locker.py.\n# See https://github.com/DougBarry/requirements_version_locker.\n#\n# Generation config:\n"
    ++ configLines cfg
    ++ "#\n# Generation timestamp: " ++ now ++ "\n#\n"

/-- Model of `get_requirements_file_footer` (source lines 154-169): empty for an
empty skip list, otherwise a warning block followed by one
`#\t{pkg}\n` line per skipped package. -/
def get_requirements_file_footer (skipped_packages : List String) : String :=
  if skipped_packages.isEmpty then ""
  else
    "#\n# WARNING: Some packages were not pinned, possible due to version information not being available, or installed libraries\n being provided by the host OS are customised.\n#\n"
      ++ skipped_packages.foldl (fun acc pkg => acc ++ "#\t" ++ pkg ++ "\n") ""

/-- The successive `write` calls performed by `write_requirements_file`
(source lines 177-182): the header, one chunk per package (every package
object is truthy, so the `if package:` guard always passes), the footer. -/
def writeOps (hdr : String) (output_packages : List Package)
    (skipped_packages : List String) : List String :=
  hdr :: output_packages.map (fun p => p.get_file_lines ++ "\n")
    ++ [get_requirements_file_footer skipped_packages]

/-- Model of `write_requirements_file` (source lines 171-183) under the `budget`
I/O model: the file is opened with `'w'` (truncated), then the chunks of
`writeOps` are written one by one.  Returns whether every write succeeded
together with the content actually left in the file. -/
def write_requirements_file (hdr : String) (output_packages : List Package)
    (skipped_packages : List String) (budget : Option Nat) : Bool × String :=
  let ops := writeOps hdr output_packages skipped_packages
  match budget with
  | none => (true, String.join ops)
  | some k =>
    if ops.length ≤ k then (true, String.join ops)
    else (false, String.join (ops.take k))

/-- Result of the `for package in input_packages:` loop (source lines
225-234). `done` carries the resolved packages and the skipped
`name==version` strings, `failFast` is the `return 1` taken when
`ignore_errors` is unset, and `crash` is the uncaught `IndexError`
raised by `package.specs[0][1]` inside the `except` block when the
requirement has no version specifier. -/
inductive LoopResult where
  | done : List Package → List String → LoopResult
  | failFast : LoopResult
  | crash : LoopResult
deriving DecidableEq

/-- Prepend a resolved package to a `done` result. -/
def LoopResult.withPkg (p : Package) : LoopResult → LoopResult
  | .done pkgs skipped => .done (p :: pkgs) skipped
  | r => r

/-- Prepend a skipped `name==version` string to a `done` result. -/
def LoopResult.withSkip (s : String) : LoopResult → LoopResult
  | .done pkgs skipped => .done pkgs (s :: skipped)
  | r => r

/-- The resolution loop (source lines 225-234).  For each requirement:
`package.specs[0][1]` is read inside the `try`; on an empty `specs` list
the `IndexError` is caught, but the `except` block immediately
re-evaluates `package.specs[0][1]` in the skip f-string and the second
`IndexError` escapes (`crash`).  Otherwise a successful fetch appends to
the output list, a failed fetch appends `f"{name}=={version}"` to the
skip list and, when `ignore_errors` is falsy, returns 1 (`failFast`). -/
def resolveEach (api : String → String → ApiResponse) (ignore_errors : Bool) :
    List Requirement → LoopResult
  | [] => .done [] []
  | req :: rest =>
    match req.specs.head? with
    | none => .crash
    | some spec =>
      match get_package_details_from_api api req.name spec.2 with
      | .ok details => (resolveEach api ignore_errors rest).withPkg details
      | .error _ =>
        if ignore_errors then
          (resolveEach api ignore_errors rest).withSkip (req.name ++ "==" ++ spec.2)
        else .failFast

/-- Outcome of `RequirementsVersionLocker.run`: either the returned `int`
or an uncaught Python exception escaping `run`. -/
inductive RunResult where
  | exit : Nat → RunResult
  | valueError : RunResult
  | keyError : String → RunResult
  | typeError : RunResult
  | indexError : RunResult
deriving DecidableEq

/-- Body of `run` (source lines 185-249) after the configuration reads:
`isEmptyCfg` is whether `self.__config` is empty (in which case the very
first `self.config('verbose_mode')` raises `ValueError`), `ifv`/`ofv` are
the looked-up `input_file`/`output_file` values (`none` = `config_require`
raises `KeyError`), `overwrite`/`ignore_errors` the boolean options and
`hdr` the header the writer will emit.  `pathlib.Path(x)` raises
`TypeError` when the configured value is not path-like (a boolean). -/
def runWith (parse : String → Option (List Requirement))
    (api : String → String → ApiResponse) (budget : Option Nat)
    (hdr : String) (isEmptyCfg : Bool) (ifv ofv : Option ConfigValue)
    (overwrite ignore_errors : Bool) (fs : FS) : RunResult × FS :=
  if isEmptyCfg then (.valueError, fs)
  else
    match ifv with
    | none => (.keyError "input_file", fs)
    | some ifval =>
      match ofv with
      | none => (.keyError "output_file", fs)
      | some ofval =>
        match ifval with
        | .vBool _ => (.typeError, fs)
        | .vStr input_file =>
          if (fs input_file).isNone then (.exit 2, fs)
          else
            match ofval with
            | .vBool _ => (.typeError, fs)
            | .vStr output_file =>
              if (fs output_file).isSome && !overwrite then (.exit 17, fs)
              else
                match get_required_packages parse fs input_file with
                | none => (.exit 5, fs)
                | some [] => (.exit 5, fs)
                | some (req :: reqs) =>
                  match resolveEach api ignore_errors (req :: reqs) with
                  | .crash => (.indexError, fs)
                  | .failFast => (.exit 1, fs)
                  | .done pkgs skipped =>
                    let wr := write_requirements_file hdr pkgs skipped budget
                    if wr.1 then (.exit 0, setFile fs output_file wr.2)
                    else (.exit 1, setFile fs output_file wr.2)

/-- Model of `RequirementsVersionLocker.run` (source lines 185-249): reads the
configuration (verbosity only changes the log level), requires
`input_file` and `output_file`, then runs the pipeline body. -/
def run (parse : String → Option (List Requirement))
    (api : String → String → ApiResponse) (budget : Option Nat)
    (now : String) (cfg : AppConfig) (fs : FS) : RunResult × FS :=
  runWith parse api budget (get_requirements_file_header cfg now) cfg.isEmpty
    (configGet cfg "input_file") (configGet cfg "output_file")
    (overwriteFlag cfg) (ignoreFlag cfg) fs

/-- Here `resolveRequirement api r` is the outcome of one iteration of the
resolution loop for requirement `r`: the resolved `Package`, or `none`
when the requirement has no version specifier or the fetch raises. -/
def resolveRequirement (api : String → String → ApiResponse)
    (r : Requirement) : Option Package :=
  match r.specs.head? with
  | none => none
  | some spec => (get_package_details_from_api api r.name spec.2).toOption


lemma configGet_map_set {cfg : AppConfig} {key k : String} {v : ConfigValue}
    (hk : k ≠ key) :
    configGet (cfg.map (fun kv => if kv.1 = key then (kv.1, v) else kv)) k =
      configGet cfg k := by
  induction cfg with
  | nil => rfl
  | cons kv rest ih =>
    by_cases h : kv.1 = key
    · simp [configGet, h, Ne.symm hk, ih]
    · simp only [List.map_cons, if_neg h]
      by_cases h2 : kv.1 = k <;> simp [configGet, h2, ih]

lemma configGet_append_single {cfg : AppConfig} {key k : String} {v : ConfigValue}
    (hk : k ≠ key) :
    configGet (cfg ++ [(key, v)]) k = configGet cfg k := by
  induction cfg with
  | nil => simp [configGet, Ne.symm hk]
  | cons kv rest ih =>
    by_cases h2 : kv.1 = k <;> simp [configGet, h2, ih]

/-- A dict assignment to `key` leaves every other key's value unchanged. -/
lemma configGet_setKey_ne {cfg : AppConfig} {key k : String} {v : ConfigValue}
    (hk : k ≠ key) : configGet (setKey cfg key v) k = configGet cfg k := by
  unfold setKey
  split
  · exact configGet_map_set hk
  · exact configGet_append_single hk

/-- A dict is never empty after an assignment. -/
lemma setKey_isEmpty (cfg : AppConfig) (key : String) (v : ConfigValue) :
    (setKey cfg key v).isEmpty = false := by
  unfold setKey
  split
  · cases cfg <;> simp_all [hasKey]
  · cases cfg <;> simp

lemma overwriteFlag_setKey_verbose (cfg : AppConfig) (v : ConfigValue) :
    overwriteFlag (setKey cfg "verbose_mode" v) = overwriteFlag cfg := by
  unfold overwriteFlag
  rw [configGet_setKey_ne (by decide)]

lemma ignoreFlag_setKey_verbose (cfg : AppConfig) (v : ConfigValue) :
    ignoreFlag (setKey cfg "verbose_mode" v) = ignoreFlag cfg := by
  unfold ignoreFlag
  rw [configGet_setKey_ne (by decide)]

/-- Scenario: the input file does not exist — `run` returns
`errno.ENOENT` (2) without touching the filesystem. -/
lemma run_inputMissing {parse : String → Option (List Requirement)}
    {api : String → String → ApiResponse} {budget : Option Nat} {now : String}
    {cfg : AppConfig} {fs : FS} {ip : String} {ofv : ConfigValue}
    (hne : cfg.isEmpty = false)
    (hi : configGet cfg "input_file" = some (.vStr ip))
    (ho : configGet cfg "output_file" = some ofv)
    (hmiss : fs ip = none) :
    run parse api budget now cfg fs = (.exit 2, fs) := by
  unfold run runWith
  simp [hne, hi, ho, hmiss]

/-- Scenario: the output file exists and overwrite is off — `run` returns
`errno.EEXIST` (17) without touching the filesystem. -/
lemma run_outputExists {parse : String → Option (List Requirement)}
    {api : String → String → ApiResponse} {budget : Option Nat} {now : String}
    {cfg : AppConfig} {fs : FS} {ip op txt c : String}
    (hne : cfg.isEmpty = false)
    (hi : configGet cfg "input_file" = some (.vStr ip))
    (ho : configGet cfg "output_file" = some (.vStr op))
    (hin : fs ip = some txt)
    (hout : fs op = some c)
    (hov : overwriteFlag cfg = false) :
    run parse api budget now cfg fs = (.exit 17, fs) := by
  unfold run runWith
  simp [hne, hi, ho, hin, hout, hov]

/-- Scenario: input and output checks pass but the manifest cannot be
parsed (or parses to an empty list) — `run` returns `errno.EIO` (5)
without touching the filesystem. -/
lemma run_parseFail {parse : String → Option (List Requirement)}
    {api : String → String → ApiResponse} {budget : Option Nat} {now : String}
    {cfg : AppConfig} {fs : FS} {ip op txt : String}
    (hne : cfg.isEmpty = false)
    (hi : configGet cfg "input_file" = some (.vStr ip))
    (ho : configGet cfg "output_file" = some (.vStr op))
    (hin : fs ip = some txt)
    (hgate : fs op = none ∨ overwriteFlag cfg = true)
    (hparse : parse txt = none ∨ parse txt = some []) :
    run parse api budget now cfg fs = (.exit 5, fs) := by
  unfold run runWith get_required_packages
  rcases hgate with hg | hg <;> rcases hparse with hp | hp <;>
    simp [hne, hi, ho, hin, hg, hp]

/-- Scenario: a requirement fails to resolve with `ignore_errors` falsy —
`run` returns 1 without touching the filesystem. -/
lemma run_failFast {parse : String → Option (List Requirement)}
    {api : String → String → ApiResponse} {budget : Option Nat} {now : String}
    {cfg : AppConfig} {fs : FS} {ip op txt : String}
    {req : Requirement} {reqs : List Requirement}
    (hne : cfg.isEmpty = false)
    (hi : configGet cfg "input_file" = some (.vStr ip))
    (ho : configGet cfg "output_file" = some (.vStr op))
    (hin : fs ip = some txt)
    (hgate : fs op = none ∨ overwriteFlag cfg = true)
    (hparse : parse txt = some (req :: reqs))
    (hres : resolveEach api (ignoreFlag cfg) (req :: reqs) = .failFast) :
    run parse api budget now cfg fs = (.exit 1, fs) := by
  unfold run runWith get_required_packages
  rcases hgate with hg | hg <;> simp [hne, hi, ho, hin, hg, hparse, hres]

/-- Scenario: a requirement with no version specifier reaches the loop —
the `except` block itself raises `IndexError`, which escapes `run`.  The
filesystem is untouched. -/
lemma run_crash {parse : String → Option (List Requirement)}
    {api : String → String → ApiResponse} {budget : Option Nat} {now : String}
    {cfg : AppConfig} {fs : FS} {ip op txt : String}
    {req : Requirement} {reqs : List Requirement}
    (hne : cfg.isEmpty = false)
    (hi : configGet cfg "input_file" = some (.vStr ip))
    (ho : configGet cfg "output_file" = some (.vStr op))
    (hin : fs ip = some txt)
    (hgate : fs op = none ∨ overwriteFlag cfg = true)
    (hparse : parse txt = some (req :: reqs))
    (hres : resolveEach api (ignoreFlag cfg) (req :: reqs) = .crash) :
    run parse api budget now cfg fs = (.indexError, fs) := by
  unfold run runWith get_required_packages
  rcases hgate with hg | hg <;> simp [hne, hi, ho, hin, hg, hparse, hres]

/-- Scenario: the resolution loop completes — `run` performs the single
final write, returning 0 on a complete write and 1 on a failed one. -/
lemma run_done {parse : String → Option (List Requirement)}
    {api : String → String → ApiResponse} {budget : Option Nat} {now : String}
    {cfg : AppConfig} {fs : FS} {ip op txt : String}
    {req : Requirement} {reqs : List Requirement}
    {pkgs : List Package} {skipped : List String}
    (hne : cfg.isEmpty = false)
    (hi : configGet cfg "input_file" = some (.vStr ip))
    (ho : configGet cfg "output_file" = some (.vStr op))
    (hin : fs ip = some txt)
    (hgate : fs op = none ∨ overwriteFlag cfg = true)
    (hparse : parse txt = some (req :: reqs))
    (hres : resolveEach api (ignoreFlag cfg) (req :: reqs) = .done pkgs skipped) :
    run parse api budget now cfg fs =
      (if (write_requirements_file (get_requirements_file_header cfg now)
             pkgs skipped budget).1 then
         (.exit 0, setFile fs op (write_requirements_file
            (get_requirements_file_header cfg now) pkgs skipped budget).2)
       else
         (.exit 1, setFile fs op (write_requirements_file
            (get_requirements_file_header cfg now) pkgs skipped budget).2)) := by
  unfold run runWith get_required_packages
  rcases hgate with hg | hg <;> simp [hne, hi, ho, hin, hg, hparse, hres]

lemma string_foldl_append (l : List String) :
    ∀ a : String, l.foldl (· ++ ·) a = a ++ l.foldl (· ++ ·) "" := by
  induction l with
  | nil => intro a; simp
  | cons x xs ih =>
    intro a
    simp only [List.foldl_cons]
    rw [ih (a ++ x), ih ("" ++ x)]
    simp [String.append_assoc]

lemma string_join_cons (s : String) (l : List String) :
    String.join (s :: l) = s ++ String.join l := by
  show (s :: l).foldl (· ++ ·) "" = s ++ l.foldl (· ++ ·) ""
  rw [List.foldl_cons, string_foldl_append l ("" ++ s)]
  simp

/-- With no I/O failure every chunk is written. -/
lemma write_requirements_file_none (hdr : String) (pkgs : List Package)
    (skipped : List String) :
    write_requirements_file hdr pkgs skipped none =
      (true, String.join (writeOps hdr pkgs skipped)) := rfl

/-- A successful write leaves exactly the joined chunks in the file. -/
lemma write_requirements_file_true {hdr : String} {pkgs : List Package}
    {skipped : List String} {budget : Option Nat}
    (h : (write_requirements_file hdr pkgs skipped budget).1 = true) :
    (write_requirements_file hdr pkgs skipped budget).2 =
      String.join (writeOps hdr pkgs skipped) := by
  unfold write_requirements_file at h ⊢
  cases budget with
  | none => rfl
  | some k =>
    by_cases hk : (writeOps hdr pkgs skipped).length ≤ k
    · simp [hk]
    · simp [hk] at h

/-- An I/O failure at the (k+1)-th `write` leaves the k first chunks. -/
lemma write_requirements_file_fail {hdr : String} {pkgs : List Package}
    {skipped : List String} {k : Nat}
    (hk : ¬ (writeOps hdr pkgs skipped).length ≤ k) :
    write_requirements_file hdr pkgs skipped (some k) =
      (false, String.join ((writeOps hdr pkgs skipped).take k)) := by
  unfold write_requirements_file
  simp [hk]

/-- When every requirement of the list resolves, the loop succeeds with
an empty skip list and one resolved package per requirement, in order. -/
lemma resolveEach_all_resolved {api : String → String → ApiResponse}
    {ig : Bool} {reqs : List Requirement}
    (h : ∀ r ∈ reqs, ∃ p, resolveRequirement api r = some p) :
    ∃ pkgs, resolveEach api ig reqs = .done pkgs [] ∧
      reqs.map (resolveRequirement api) = pkgs.map some := by
  induction reqs with
  | nil => exact ⟨[], rfl, rfl⟩
  | cons r rest ih =>
    obtain ⟨p, hp⟩ := h r (List.mem_cons_self r rest)
    obtain ⟨pkgs, h1, h2⟩ := ih (fun x hx => h x (List.mem_cons_of_mem _ hx))
    unfold resolveRequirement at hp
    rcases hs : r.specs.head? with _ | spec
    · rw [hs] at hp; exact absurd hp (by simp)
    · rw [hs] at hp
      dsimp only at hp
      rcases hg : get_package_details_from_api api r.name spec.2 with e | d
      · rw [hg] at hp; simp [Except.toOption] at hp
      · rw [hg] at hp
        simp only [Except.toOption, Option.some.injEq] at hp
        subst hp
        refine ⟨d :: pkgs, ?_, ?_⟩
        · simp [resolveEach, hs, hg, h1, LoopResult.withPkg]
        · simp [resolveRequirement, hs, hg, Except.toOption, h2]

/-- Total case analysis of `run`: either the filesystem comes back
untouched and the status is not 0, or the loop finished and the single
final write step happened. -/
lemma run_cases (parse : String → Option (List Requirement))
    (api : String → String → ApiResponse) (budget : Option Nat)
    (now : String) (cfg : AppConfig) (fs : FS) :
    ((run parse api budget now cfg fs).2 = fs ∧
      (run parse api budget now cfg fs).1 ≠ .exit 0)
    ∨ (∃ ip op txt req reqs pkgs skipped,
        configGet cfg "input_file" = some (.vStr ip) ∧
        configGet cfg "output_file" = some (.vStr op) ∧
        fs ip = some txt ∧
        parse txt = some (req :: reqs) ∧
        resolveEach api (ignoreFlag cfg) (req :: reqs) = .done pkgs skipped ∧
        run parse api budget now cfg fs =
          (if (write_requirements_file (get_requirements_file_header cfg now)
                 pkgs skipped budget).1 then
             (.exit 0, setFile fs op (write_requirements_file
                (get_requirements_file_header cfg now) pkgs skipped budget).2)
           else
             (.exit 1, setFile fs op (write_requirements_file
                (get_requirements_file_header cfg now) pkgs skipped budget).2))) := by
  unfold run runWith get_required_packages
  cases hne : cfg.isEmpty with
  | true => exact Or.inl ⟨by simp [hne], by simp [hne]⟩
  | false =>
  cases hi : configGet cfg "input_file" with
  | none => exact Or.inl ⟨by simp [hne, hi], by simp [hne, hi]⟩
  | some ifval =>
  cases ho : configGet cfg "output_file" with
  | none => exact Or.inl ⟨by simp [hne, hi, ho], by simp [hne, hi, ho]⟩
  | some ofval =>
  cases ifval with
  | vBool b => exact Or.inl ⟨by simp [hne, hi, ho], by simp [hne, hi, ho]⟩
  | vStr ip =>
  cases hin : fs ip with
  | none => exact Or.inl ⟨by simp [hne, hi, ho, hin], by simp [hne, hi, ho, hin]⟩
  | some txt =>
  cases ofval with
  | vBool b =>
    exact Or.inl ⟨by simp [hne, hi, ho, hin], by simp [hne, hi, ho, hin]⟩
  | vStr op =>
  cases hgate : (fs op).isSome && !overwriteFlag cfg with
  | true =>
    exact Or.inl ⟨by simp [hne, hi, ho, hin, hgate],
      by simp [hne, hi, ho, hin, hgate]⟩
  | false =>
  cases hp : parse txt with
  | none =>
    exact Or.inl ⟨by simp [hne, hi, ho, hin, hgate, hp],
      by simp [hne, hi, ho, hin, hgate, hp]⟩
  | some l =>
  cases l with
  | nil =>
    exact Or.inl ⟨by simp [hne, hi, ho, hin, hgate, hp],
      by simp [hne, hi, ho, hin, hgate, hp]⟩
  | cons req reqs =>
  cases hres : resolveEach api (ignoreFlag cfg) (req :: reqs) with
  | crash =>
    exact Or.inl ⟨by simp [hne, hi, ho, hin, hgate, hp, hres],
      by simp [hne, hi, ho, hin, hgate, hp, hres]⟩
  | failFast =>
    exact Or.inl ⟨by simp [hne, hi, ho, hin, hgate, hp, hres],
      by simp [hne, hi, ho, hin, hgate, hp, hres]⟩
  | done pkgs skipped =>
    exact Or.inr ⟨ip, op, txt, req, reqs, pkgs, skipped, rfl, rfl, hin, hp, hres,
      by simp [hne, hin, hgate, hp, hres]⟩

lemma string_join_nil : String.join [] = "" := rfl

/-- The header string influences neither the control flow nor the status
of the pipeline body: two runs differing only in the header string agree
on the status, and either both leave the filesystem untouched, or both
truncated the file before any content was written, or both wrote the
same chunk sequence after their respective headers. -/
lemma runWith_hdr_agree (parse : String → Option (List Requirement))
    (api : String → String → ApiResponse) (budget : Option Nat)
    (h1 h2 : String) (e : Bool) (ifv ofv : Option ConfigValue)
    (ov ig : Bool) (fs : FS) :
    (runWith parse api budget h1 e ifv ofv ov ig fs).1 =
      (runWith parse api budget h2 e ifv ofv ov ig fs).1
    ∧ (((runWith parse api budget h1 e ifv ofv ov ig fs).2 = fs ∧
        (runWith parse api budget h2 e ifv ofv ov ig fs).2 = fs)
      ∨ ∃ op, ofv = some (.vStr op) ∧
          (((runWith parse api budget h1 e ifv ofv ov ig fs).2 =
              setFile fs op "" ∧
            (runWith parse api budget h2 e ifv ofv ov ig fs).2 =
              setFile fs op "")
          ∨ ∃ rest, (runWith parse api budget h1 e ifv ofv ov ig fs).2 =
              setFile fs op (h1 ++ rest) ∧
            (runWith parse api budget h2 e ifv ofv ov ig fs).2 =
              setFile fs op (h2 ++ rest))) := by
  unfold runWith get_required_packages
  cases e with
  | true => exact ⟨by simp, Or.inl ⟨by simp, by simp⟩⟩
  | false =>
  cases ifv with
  | none => exact ⟨by simp, Or.inl ⟨by simp, by simp⟩⟩
  | some ifval =>
  cases ofv with
  | none => exact ⟨by simp, Or.inl ⟨by simp, by simp⟩⟩
  | some ofval =>
  cases ifval with
  | vBool b => exact ⟨by simp, Or.inl ⟨by simp, by simp⟩⟩
  | vStr ip =>
  cases hin : fs ip with
  | none => exact ⟨by simp [hin], Or.inl ⟨by simp [hin], by simp [hin]⟩⟩
  | some txt =>
  cases ofval with
  | vBool b => exact ⟨by simp [hin], Or.inl ⟨by simp [hin], by simp [hin]⟩⟩
  | vStr op =>
  cases hgate : (fs op).isSome && !ov with
  | true =>
    exact ⟨by simp [hin, hgate], Or.inl ⟨by simp [hin, hgate], by simp [hin, hgate]⟩⟩
  | false =>
  cases hp : parse txt with
  | none =>
    exact ⟨by simp [hin, hgate, hp], Or.inl ⟨by simp [hin, hgate, hp],
      by simp [hin, hgate, hp]⟩⟩
  | some l =>
  cases l with
  | nil =>
    exact ⟨by simp [hin, hgate, hp], Or.inl ⟨by simp [hin, hgate, hp],
      by simp [hin, hgate, hp]⟩⟩
  | cons req reqs =>
  cases hres : resolveEach api ig (req :: reqs) with
  | crash =>
    exact ⟨by simp [hin, hgate, hp, hres], Or.inl ⟨by simp [hin, hgate, hp, hres],
      by simp [hin, hgate, hp, hres]⟩⟩
  | failFast =>
    exact ⟨by simp [hin, hgate, hp, hres], Or.inl ⟨by simp [hin, hgate, hp, hres],
      by simp [hin, hgate, hp, hres]⟩⟩
  | done pkgs skipped =>
    cases budget with
    | none =>
      refine ⟨by simp [hin, hgate, hp, hres, write_requirements_file],
        Or.inr ⟨op, rfl, Or.inr ⟨String.join (pkgs.map (fun p => p.get_file_lines ++ "\n")
          ++ [get_requirements_file_footer skipped]), ?_, ?_⟩⟩⟩ <;>
        simp [hin, hgate, hp, hres, write_requirements_file, writeOps, string_join_cons]
    | some k =>
      by_cases hk : pkgs.length + 1 + 1 ≤ k
      · refine ⟨by simp [hin, hgate, hp, hres, write_requirements_file, writeOps, hk],
          Or.inr ⟨op, rfl, Or.inr ⟨String.join (pkgs.map (fun p => p.get_file_lines ++ "\n")
            ++ [get_requirements_file_footer skipped]), ?_, ?_⟩⟩⟩ <;>
          simp [hin, hgate, hp, hres, write_requirements_file, writeOps, hk, string_join_cons]
      · cases k with
        | zero =>
          refine ⟨by simp [hin, hgate, hp, hres, write_requirements_file, writeOps, hk],
            Or.inr ⟨op, rfl, Or.inl ⟨?_, ?_⟩⟩⟩ <;>
            simp [hin, hgate, hp, hres, write_requirements_file, writeOps, hk, string_join_nil]
        | succ j =>
          refine ⟨by simp [hin, hgate, hp, hres, write_requirements_file, writeOps, hk],
            Or.inr ⟨op, rfl, Or.inr ⟨String.join ((pkgs.map (fun p => p.get_file_lines ++ "\n")
              ++ [get_requirements_file_footer skipped]).take j), ?_, ?_⟩⟩⟩ <;>
            simp [hin, hgate, hp, hres, write_requirements_file, writeOps, hk,
              List.take_succ_cons, string_join_cons]

/-- Whitespace relevant to requirement-line tokenisation: the space and
newline characters occurring in the rendered record. -/
def isWsC (c : Char) : Bool := c == ' ' || c == '\n'

/-- Split a character list at whitespace, keeping empty words. -/
def splitWs : List Char → List (List Char)
  | [] => [[]]
  | c :: rest =>
    if isWsC c then [] :: splitWs rest
    else
      match splitWs rest with
      | [] => [[c]]
      | w :: ws => (c :: w) :: ws

lemma splitWs_ne_nil (l : List Char) : splitWs l ≠ [] := by
  cases l with
  | nil => simp [splitWs]
  | cons c rest =>
    simp only [splitWs]
    split
    · simp
    · split <;> simp

lemma splitWs_cons_ws {c : Char} (h : isWsC c = true) (l : List Char) :
    splitWs (c :: l) = [] :: splitWs l := by
  simp [splitWs, h]

lemma splitWs_cons_not {c : Char} (h : isWsC c = false) (l : List Char) :
    splitWs (c :: l) = (c :: (splitWs l).headI) :: (splitWs l).tail := by
  simp only [splitWs, h, Bool.false_eq_true, if_false]
  cases hs : splitWs l with
  | nil => exact absurd hs (splitWs_ne_nil l)
  | cons w ws => simp

lemma splitWs_append_word (w : List Char) (hw : ∀ c ∈ w, isWsC c = false)
    (l : List Char) :
    splitWs (w ++ l) = (w ++ (splitWs l).headI) :: (splitWs l).tail := by
  induction w with
  | nil =>
    simp only [List.nil_append]
    cases hs : splitWs l with
    | nil => exact absurd hs (splitWs_ne_nil l)
    | cons a as => simp
  | cons c cs ih =>
    have hc : isWsC c = false := hw c (by simp)
    have ih' := ih (fun x hx => hw x (by simp [hx]))
    simp only [List.cons_append, splitWs_cons_not hc, ih']
    simp

/-- The non-empty whitespace-separated words of a character list. -/
def nonWsWords (l : List Char) : List (List Char) :=
  (splitWs l).filter (fun w => !w.isEmpty)

lemma nonWsWords_cons_ws {c : Char} (h : isWsC c = true) (l : List Char) :
    nonWsWords (c :: l) = nonWsWords l := by
  simp [nonWsWords, splitWs_cons_ws h, List.filter_cons]

lemma nonWsWords_word_sep (w : List Char) (hw : ∀ c ∈ w, isWsC c = false)
    (hne : w ≠ []) {c : Char} (hc : isWsC c = true) (l : List Char) :
    nonWsWords (w ++ c :: l) = w :: nonWsWords l := by
  simp only [nonWsWords, splitWs_append_word w hw, splitWs_cons_ws hc,
    List.headI_cons, List.tail_cons, List.append_nil]
  simp [List.filter_cons, hne]

lemma nonWsWords_cons_word_sep {a c : Char} (ha : isWsC a = false)
    (hc : isWsC c = true) (l : List Char) :
    nonWsWords (a :: c :: l) = [a] :: nonWsWords l :=
  nonWsWords_word_sep [a] (by simpa using ha) (by simp) hc l

lemma nonWsWords_word_only (w : List Char) (hw : ∀ c ∈ w, isWsC c = false) :
    nonWsWords w = if w = [] then [] else [w] := by
  have h := splitWs_append_word w hw []
  simp only [List.append_nil] at h
  by_cases hne : w = []
  · simp [nonWsWords, hne, splitWs]
  · simp [nonWsWords, h, splitWs, List.filter_cons, hne]

/-- Characters that may appear in a package name, version or digest
without interfering with the rendered record's own separators. -/
def sepFreeL (l : List Char) : Prop := ∀ c ∈ l, c ≠ ' ' ∧ c ≠ '\n' ∧ c ≠ '\\'

/-- Same, for a string. -/
def sepFree (s : String) : Prop := sepFreeL s.data

instance : DecidablePred sepFreeL := fun l =>
  List.decidableBAll _ l

instance : DecidablePred sepFree := fun s =>
  inferInstanceAs (Decidable (sepFreeL s.data))

lemma sepFreeL_ws {w : List Char} (hw : sepFreeL w) :
    ∀ c ∈ w, isWsC c = false := by
  intro c hc
  obtain ⟨h1, h2, _⟩ := hw c hc
  simp [isWsC, h1, h2]

lemma sepFreeL_append {a b : List Char} (ha : sepFreeL a) (hb : sepFreeL b) :
    sepFreeL (a ++ b) := by
  intro c hc
  rcases List.mem_append.mp hc with h | h
  · exact ha c h
  · exact hb c h

/-- The characters of the continuation separator `" \\\n    "`. -/
lemma packageNewline_data :
    packageNewline.data = [' ', '\\', '\n', ' ', ' ', ' ', ' '] := by decide

/-- The characters of the rendered hash option marker. -/
def hashOptChars : List Char := ("--hash=sha256:").data

lemma hashOptChars_sepFree : sepFreeL hashOptChars := by decide

lemma hashOptChars_len : hashOptChars.length = 14 := by decide

lemma string_join_data (l : List String) :
    (String.join l).data = (l.map String.data).flatten := by
  induction l with
  | nil => rfl
  | cons s t ih => simp [string_join_cons, String.data_append, ih]

lemma string_mk_data (s : String) : String.mk s.data = s := rfl

/-- Words of a non-empty word followed by the rendered hash chunks: the
word, then alternately the continuation backslash and one hash token per
checksum, in order. -/
lemma nonWsWords_hash_chunks (hs : List String)
    (hhs : ∀ h ∈ hs, sepFreeL h.data) :
    ∀ w : List Char, sepFreeL w → w ≠ [] →
      nonWsWords (w ++ (hs.map
          (fun h => packageNewline.data ++ hashOptChars ++ h.data)).flatten) =
        w :: (hs.map (fun h => [['\\'], hashOptChars ++ h.data])).flatten := by
  induction hs with
  | nil =>
    intro w hw hne
    simp [nonWsWords_word_only w (sepFreeL_ws hw), hne]
  | cons h t ih =>
    intro w hw hne
    have hsp : isWsC ' ' = true := by decide
    have hnl : isWsC '\n' = true := by decide
    have hbs : isWsC '\\' = false := by decide
    have hword : sepFreeL (hashOptChars ++ h.data) :=
      sepFreeL_append hashOptChars_sepFree (hhs h (by simp))
    have hwordne : hashOptChars ++ h.data ≠ [] := by
      intro he
      have hl := congrArg List.length he
      simp [hashOptChars_len] at hl
    have ihh := ih (fun x hx => hhs x (by simp [hx])) (hashOptChars ++ h.data)
      hword hwordne
    simp only [List.map_cons, List.flatten_cons, packageNewline_data,
      List.append_assoc, List.cons_append, List.nil_append] at ihh ⊢
    rw [nonWsWords_word_sep w (sepFreeL_ws hw) hne hsp]
    rw [nonWsWords_cons_word_sep hbs hnl]
    rw [nonWsWords_cons_ws hsp, nonWsWords_cons_ws hsp, nonWsWords_cons_ws hsp,
      nonWsWords_cons_ws hsp]
    rw [ihh]

lemma foldl_hash_append (hs : List String) :
    ∀ init : String,
      hs.foldl (fun acc phash => acc ++ packageNewline ++ "--hash=sha256:" ++ phash) init =
        init ++ String.join (hs.map (fun h => packageNewline ++ "--hash=sha256:" ++ h)) := by
  induction hs with
  | nil => intro init; simp [string_join_nil]
  | cons h t ih =>
    intro init
    simp only [List.foldl_cons, List.map_cons, string_join_cons]
    rw [ih (init ++ packageNewline ++ "--hash=sha256:" ++ h)]
    simp [String.append_assoc]

/-- Structure of a rendered record: the `name==version` stem followed by
one separator-joined `--hash=sha256:` chunk per checksum, in order. -/
lemma get_file_lines_eq (n v : String) (hs : List String) :
    Package.get_file_lines ⟨n, v, hs⟩ =
      (n ++ "==" ++ v) ++
        String.join (hs.map (fun h => packageNewline ++ "--hash=sha256:" ++ h)) := by
  unfold Package.get_file_lines
  exact foldl_hash_append hs (n ++ "==" ++ v)

/-- Tokens of a rendered record, as a requirements-file consumer sees
them: split the text at whitespace, drop empty words and the bare `\`
line-continuation markers. -/
def recordTokens (s : String) : List String :=
  ((nonWsWords s.data).filter (fun w => w ≠ ['\\'])).map String.mk

lemma filter_backslash_hash_chunks (hs : List String) :
    ((hs.map (fun h => [['\\'], hashOptChars ++ h.data])).flatten).filter
        (fun w => w ≠ ['\\']) =
      hs.map (fun h => hashOptChars ++ h.data) := by
  induction hs with
  | nil => rfl
  | cons h t ih =>
    have hne : (hashOptChars ++ h.data) ≠ ['\\'] := by
      intro he
      have hl := congrArg List.length he
      simp only [List.length_append, hashOptChars_len, List.length_cons,
        List.length_nil] at hl
      omega
    simp only [List.map_cons, List.flatten_cons, List.cons_append,
      List.nil_append, List.filter_cons]
    rw [if_neg (by simp), if_pos (by simp [hne]), ih]

lemma hashOptChars_eq : hashOptChars = ("--hash=sha256:").data := rfl

lemma data_map_chunks (hs : List String) :
    (hs.map (fun h => ((packageNewline ++ "--hash=sha256:" ++ h) : String))).map
        String.data =
      hs.map (fun h => packageNewline.data ++ hashOptChars ++ h.data) := by
  induction hs with
  | nil => rfl
  | cons h t ih =>
    simp only [List.map_cons, ih, List.cons.injEq, and_true]
    rw [String.data_append, String.data_append, hashOptChars_eq]

lemma mk_hash_chunk (h : String) :
    String.mk (hashOptChars ++ h.data) = "--hash=sha256:" ++ h := by
  rw [show hashOptChars ++ h.data = (("--hash=sha256:" ++ h) : String).data from
    by rw [String.data_append, hashOptChars_eq]]

/-- The tokens of a rendered record are exactly the `name==version` stem
followed by one `--hash=sha256:<digest>` token per checksum, in order. -/
lemma recordTokens_get_file_lines (n v : String) (hs : List String)
    (hn : sepFree n) (hv : sepFree v) (hhs : ∀ h ∈ hs, sepFree h) :
    recordTokens (Package.get_file_lines ⟨n, v, hs⟩) =
      (n ++ "==" ++ v) :: hs.map (fun h => "--hash=sha256:" ++ h) := by
  have hstem : ((n ++ "==" ++ v) : String).data = n.data ++ ['=', '='] ++ v.data := by
    rw [String.data_append, String.data_append]
  have hstemfree : sepFreeL ((n ++ "==" ++ v) : String).data := by
    rw [hstem]
    exact sepFreeL_append (sepFreeL_append hn (by decide)) hv
  have hstemne : ((n ++ "==" ++ v) : String).data ≠ [] := by
    intro he
    have hl := congrArg List.length he
    rw [hstem] at hl
    simp at hl
  have hstembs : ¬ (n.data ++ '=' :: '=' :: v.data = ['\\']) := by
    intro he
    have hl := congrArg List.length he
    simp at hl
    omega
  have hdata : (Package.get_file_lines ⟨n, v, hs⟩).data =
      ((n ++ "==" ++ v) : String).data ++
        (hs.map (fun h => packageNewline.data ++ hashOptChars ++ h.data)).flatten := by
    rw [get_file_lines_eq, String.data_append, string_join_data, data_map_chunks]
  unfold recordTokens
  rw [hdata, nonWsWords_hash_chunks hs (fun h hh => hhs h hh)
    ((n ++ "==" ++ v) : String).data hstemfree hstemne]
  rw [List.filter_cons, if_pos (by simp [hstembs]), filter_backslash_hash_chunks]
  rw [List.map_cons, string_mk_data, List.map_map]
  congr 1

/-- A successfully constructed `Package` always carries at least one
hash: the `len(hashes) < 1` guard raises before construction. -/
lemma get_package_details_ok_hashes {api : String → String → ApiResponse}
    {n v : String} {p : Package}
    (h : get_package_details_from_api api n v = .ok p) : p.hashes ≠ [] := by
  unfold get_package_details_from_api at h
  rcases hA : api n v with _ | urls
  · rw [hA] at h; simp at h
  · rw [hA] at h
    rcases urls with _ | arts
    · simp at h
    · dsimp only at h
      rcases hc : collectDigests arts with e | hashes
      · rw [hc] at h; simp at h
      · rw [hc] at h
        by_cases hl : hashes.length < 1
        · simp [hl] at h
        · simp only [hl, if_false] at h
          cases h
          intro he
          have he2 : hashes = [] := he
          rw [he2] at hl
          exact hl (by simp)

/-- The digest loop raises `KeyError` whenever some artifact lacks its
`digests`/`sha256` entry. -/
lemma collectDigests_mem_none {arts : List (Option String)}
    (h : none ∈ arts) : collectDigests arts = .error () := by
  induction arts with
  | nil => simp at h
  | cons a rest ih =>
    cases a with
    | none => rfl
    | some x =>
      have hr : none ∈ rest := by
        rcases List.mem_cons.mp h with h1 | h1
        · exact absurd h1 (by simp)
        · exact h1
      simp [collectDigests, ih hr, Except.map]

/-- Rendered output when nothing was skipped: header then the records,
and an empty footer. -/
lemma string_join_append_empty (l : List String) :
    String.join (l ++ [""]) = String.join l := by
  induction l with
  | nil => rfl
  | cons s t ih => simp [string_join_cons, ih]

lemma writeOps_join_no_skips (hdr : String) (pkgs : List Package) :
    String.join (writeOps hdr pkgs []) =
      hdr ++ String.join (pkgs.map (fun p => p.get_file_lines ++ "\n")) := by
  unfold writeOps
  rw [List.cons_append, string_join_cons]
  congr 1
  rw [show get_requirements_file_footer [] = "" from rfl]
  exact string_join_append_empty _

/-- Dropping the 14-character `--hash=sha256:` marker from a rendered
hash token recovers the digest. -/
lemma hash_chunk_drop (h : String) :
    String.mk ((("--hash=sha256:" ++ h) : String).data.drop 14) = h := by
  rw [String.data_append,
    show (14 : Nat) = ("--hash=sha256:" : String).data.length from by decide,
    List.drop_left, string_mk_data]

/-! Concrete scenarios used by counterexamples and witnesses. -/

/-- A requirement with a pinned version, as parsed from `foo==1.0.0`. -/
def reqFoo : Requirement := ⟨"foo", [("==", "1.0.0")]⟩

/-- A requirement with no version specifier, as parsed from a bare `bar`
line (its `specs` list is empty). -/
def reqBar : Requirement := ⟨"bar", []⟩

def parseFoo : String → Option (List Requirement) := fun _ => some [reqFoo]

def parseBar : String → Option (List Requirement) := fun _ => some [reqBar]

def apiTwoHashes : String → String → ApiResponse :=
  fun _ _ => .ok (some [some "aa", some "bb"])

def apiDown : String → String → ApiResponse := fun _ _ => .netFail

def apiNoDigest : String → String → ApiResponse :=
  fun _ _ => .ok (some [some "aa", none])

def cfgDemo : AppConfig :=
  [("input_file", .vStr "requirements.txt"),
   ("output_file", .vStr "requirements-locked.txt"),
   ("overwrite_mode", .vBool true), ("ignore_errors", .vBool true)]

def cfgStrict : AppConfig :=
  [("input_file", .vStr "requirements.txt"),
   ("output_file", .vStr "requirements-locked.txt")]

def fsIn : FS := fun p => if p = "requirements.txt" then some "foo==1.0.0\n" else none

def fsInOut : FS := fun p =>
  if p = "requirements.txt" then some "foo==1.0.0\n"
  else if p = "requirements-locked.txt" then some "OLD CONTENT" else none

/-- Claim C1: the spec requires every requirement that fails resolution
under `ignoreErrors=true` — including one with no version specifier — to
be routed to the skip path, with the run exiting 0 and the footer naming
it.  The code instead evaluates `package.specs[0][1]` inside the
`except` block, so a requirement with an empty `specs` list makes the
skip path itself raise an uncaught `IndexError`: the run aborts with no
output file written, contradicting the claim. -/
theorem C1_no_version_specifier_crashes_skip_path :
    ignoreFlag cfgDemo = true ∧
    run parseBar apiTwoHashes none "2022-12-13T12:00:00" cfgDemo fsIn =
      (.indexError, fsIn) :=
  ⟨rfl, rfl⟩

/-- Claim C2 counterexample: the five failure classes do not get
pairwise-distinct exit codes — a resolution failure under the fail-fast
policy and a write failure both return 1. -/
theorem C2_counterexample_resolution_and_write_share_code :
    (run parseFoo apiDown none "T" cfgStrict fsIn).1 = .exit 1 ∧
    (run parseFoo apiTwoHashes (some 0) "T" cfgDemo fsIn).1 = .exit 1 :=
  ⟨rfl, rfl⟩

/-- Claim C2 (amended): `run` returns distinct non-zero codes for input
not found (`errno.ENOENT` = 2), output already exists (`errno.EEXIST` =
17) and parse/read failure (`errno.EIO` = 5); a resolution failure under
the fail-fast policy and a write failure, however, share the same code
1.  The code 0 is returned exactly when the output file is written: any
run returning 0 has performed the final write with every chunk
succeeding. -/
theorem C2_exit_codes :
    (∀ parse api budget now cfg (fs : FS) ip ofv, cfg.isEmpty = false →
      configGet cfg "input_file" = some (.vStr ip) →
      configGet cfg "output_file" = some ofv → fs ip = none →
      (run parse api budget now cfg fs).1 = .exit 2)
    ∧ (∀ parse api budget now cfg (fs : FS) ip op txt c, cfg.isEmpty = false →
      configGet cfg "input_file" = some (.vStr ip) →
      configGet cfg "output_file" = some (.vStr op) →
      fs ip = some txt → fs op = some c → overwriteFlag cfg = false →
      (run parse api budget now cfg fs).1 = .exit 17)
    ∧ (∀ parse api budget now cfg (fs : FS) ip op txt, cfg.isEmpty = false →
      configGet cfg "input_file" = some (.vStr ip) →
      configGet cfg "output_file" = some (.vStr op) →
      fs ip = some txt → (fs op = none ∨ overwriteFlag cfg = true) →
      (parse txt = none ∨ parse txt = some []) →
      (run parse api budget now cfg fs).1 = .exit 5)
    ∧ (∀ parse api budget now cfg (fs : FS) ip op txt req reqs,
      cfg.isEmpty = false →
      configGet cfg "input_file" = some (.vStr ip) →
      configGet cfg "output_file" = some (.vStr op) →
      fs ip = some txt → (fs op = none ∨ overwriteFlag cfg = true) →
      parse txt = some (req :: reqs) →
      resolveEach api (ignoreFlag cfg) (req :: reqs) = .failFast →
      (run parse api budget now cfg fs).1 = .exit 1)
    ∧ (∀ parse api budget now cfg (fs : FS) ip op txt req reqs pkgs skipped,
      cfg.isEmpty = false →
      configGet cfg "input_file" = some (.vStr ip) →
      configGet cfg "output_file" = some (.vStr op) →
      fs ip = some txt → (fs op = none ∨ overwriteFlag cfg = true) →
      parse txt = some (req :: reqs) →
      resolveEach api (ignoreFlag cfg) (req :: reqs) = .done pkgs skipped →
      (write_requirements_file (get_requirements_file_header cfg now)
        pkgs skipped budget).1 = false →
      (run parse api budget now cfg fs).1 = .exit 1)
    ∧ (∀ parse api budget now cfg (fs : FS),
      (run parse api budget now cfg fs).1 = .exit 0 →
      ∃ op pkgs skipped, configGet cfg "output_file" = some (.vStr op) ∧
        (write_requirements_file (get_requirements_file_header cfg now)
          pkgs skipped budget).1 = true ∧
        (run parse api budget now cfg fs).2 = setFile fs op
          (String.join (writeOps (get_requirements_file_header cfg now)
            pkgs skipped)))
    ∧ ((RunResult.exit 2 ≠ .exit 17) ∧ (RunResult.exit 2 ≠ .exit 5) ∧
       (RunResult.exit 2 ≠ .exit 1) ∧ (RunResult.exit 2 ≠ .exit 0) ∧
       (RunResult.exit 17 ≠ .exit 5) ∧ (RunResult.exit 17 ≠ .exit 1) ∧
       (RunResult.exit 17 ≠ .exit 0) ∧ (RunResult.exit 5 ≠ .exit 1) ∧
       (RunResult.exit 5 ≠ .exit 0) ∧ (RunResult.exit 1 ≠ .exit 0)) := by
  refine ⟨?_, ?_, ?_, ?_, ?_, ?_, by decide⟩
  · intro parse api budget now cfg fs ip ofv hne hi ho hmiss
    rw [run_inputMissing hne hi ho hmiss]
  · intro parse api budget now cfg fs ip op txt c hne hi ho hin hout hov
    rw [run_outputExists hne hi ho hin hout hov]
  · intro parse api budget now cfg fs ip op txt hne hi ho hin hgate hparse
    rw [run_parseFail hne hi ho hin hgate hparse]
  · intro parse api budget now cfg fs ip op txt req reqs hne hi ho hin hgate
      hparse hres
    rw [run_failFast hne hi ho hin hgate hparse hres]
  · intro parse api budget now cfg fs ip op txt req reqs pkgs skipped hne hi ho
      hin hgate hparse hres hw
    rw [run_done hne hi ho hin hgate hparse hres]
    simp [hw]
  · intro parse api budget now cfg fs h
    rcases run_cases parse api budget now cfg fs with ⟨_, hne0⟩ |
      ⟨ip, op, txt, req, reqs, pkgs, skipped, hi, ho, hin, hp, hres, heq⟩
    · exact absurd h hne0
    · by_cases hw : (write_requirements_file
          (get_requirements_file_header cfg now) pkgs skipped budget).1 = true
      · refine ⟨op, pkgs, skipped, ho, hw, ?_⟩
        rw [heq]
        simp [hw, write_requirements_file_true hw]
      · rw [heq] at h
        simp [hw] at h

theorem C2_exit_codes_witness :
    (run parseFoo apiDown none "T" cfgStrict (fun _ => none)).1 = .exit 2 ∧
    (run parseFoo apiDown none "T" cfgStrict fsInOut).1 = .exit 17 ∧
    (run (fun _ => none) apiDown none "T" cfgStrict fsIn).1 = .exit 5 ∧
    (run parseFoo apiDown none "T" cfgStrict fsIn).1 = .exit 1 ∧
    (run parseFoo apiTwoHashes (some 0) "T" cfgDemo fsIn).1 = .exit 1 ∧
    (∃ op pkgs skipped, configGet cfgDemo "output_file" = some (.vStr op) ∧
      (write_requirements_file (get_requirements_file_header cfgDemo "T")
        pkgs skipped none).1 = true ∧
      (run parseFoo apiTwoHashes none "T" cfgDemo fsIn).2 = setFile fsIn op
        (String.join (writeOps (get_requirements_file_header cfgDemo "T")
          pkgs skipped))) := by
  refine ⟨?_, ?_, ?_, ?_, ?_, ?_⟩
  · exact C2_exit_codes.1 parseFoo apiDown none "T" cfgStrict (fun _ => none)
      "requirements.txt" (.vStr "requirements-locked.txt") rfl rfl rfl rfl
  · exact C2_exit_codes.2.1 parseFoo apiDown none "T" cfgStrict fsInOut
      "requirements.txt" "requirements-locked.txt" "foo==1.0.0\n" "OLD CONTENT"
      rfl rfl rfl rfl rfl rfl
  · exact C2_exit_codes.2.2.1 (fun _ => none) apiDown none "T" cfgStrict fsIn
      "requirements.txt" "requirements-locked.txt" "foo==1.0.0\n" rfl rfl rfl rfl
      (Or.inl rfl) (Or.inl rfl)
  · exact C2_exit_codes.2.2.2.1 parseFoo apiDown none "T" cfgStrict fsIn
      "requirements.txt" "requirements-locked.txt" "foo==1.0.0\n" reqFoo [] rfl
      rfl rfl rfl (Or.inl rfl) rfl rfl
  · exact C2_exit_codes.2.2.2.2.1 parseFoo apiTwoHashes (some 0) "T" cfgDemo fsIn
      "requirements.txt" "requirements-locked.txt" "foo==1.0.0\n" reqFoo []
      [⟨"foo", "1.0.0", ["aa", "bb"]⟩] [] rfl rfl rfl rfl (Or.inr rfl) rfl rfl rfl
  · exact C2_exit_codes.2.2.2.2.2.1 parseFoo apiTwoHashes none "T" cfgDemo fsIn rfl

/-- Claim C3 counterexample: on a write-failure abort the destination is
not left untouched.  The output file is opened with `'w'` before any
content is written, so a failure on the very first `write` call leaves
the pre-existing file truncated to empty — the code returns 1 and the
destination's content changed from `OLD CONTENT` to the empty string. -/
theorem C3_counterexample_write_failure_truncates :
    fsInOut "requirements-locked.txt" = some "OLD CONTENT" ∧
    (run parseFoo apiTwoHashes (some 0) "T" cfgDemo fsInOut).1 = .exit 1 ∧
    (run parseFoo apiTwoHashes (some 0) "T" cfgDemo fsInOut).2
      "requirements-locked.txt" = some "" :=
  ⟨rfl, rfl, rfl⟩

/-- Claim C3 (amended): on the fatal aborts that occur before the write
step — parse failure and resolution failure with `ignoreErrors=false` —
the output file is neither created nor modified, and output is produced
only by the single final write performed after the resolution of all
requirements has finished (never incrementally).  A failed write,
however, can leave the destination truncated or partially written,
because the file is opened in truncating mode before its content is
written. -/
theorem C3_abort_before_write_preserves_fs :
    (∀ parse api budget now cfg (fs : FS) ip op txt, cfg.isEmpty = false →
      configGet cfg "input_file" = some (.vStr ip) →
      configGet cfg "output_file" = some (.vStr op) →
      fs ip = some txt → (fs op = none ∨ overwriteFlag cfg = true) →
      (parse txt = none ∨ parse txt = some []) →
      run parse api budget now cfg fs = (.exit 5, fs))
    ∧ (∀ parse api budget now cfg (fs : FS) ip op txt req reqs,
      cfg.isEmpty = false →
      configGet cfg "input_file" = some (.vStr ip) →
      configGet cfg "output_file" = some (.vStr op) →
      fs ip = some txt → (fs op = none ∨ overwriteFlag cfg = true) →
      parse txt = some (req :: reqs) →
      resolveEach api (ignoreFlag cfg) (req :: reqs) = .failFast →
      run parse api budget now cfg fs = (.exit 1, fs))
    ∧ (∀ parse api budget now cfg (fs : FS),
      (run parse api budget now cfg fs).2 ≠ fs →
      ∃ ip op txt req reqs pkgs skipped,
        configGet cfg "input_file" = some (.vStr ip) ∧
        configGet cfg "output_file" = some (.vStr op) ∧
        fs ip = some txt ∧ parse txt = some (req :: reqs) ∧
        resolveEach api (ignoreFlag cfg) (req :: reqs) = .done pkgs skipped ∧
        (run parse api budget now cfg fs).2 = setFile fs op
          (write_requirements_file (get_requirements_file_header cfg now)
            pkgs skipped budget).2) := by
  refine ⟨?_, ?_, ?_⟩
  · intro parse api budget now cfg fs ip op txt hne hi ho hin hgate hparse
    exact run_parseFail hne hi ho hin hgate hparse
  · intro parse api budget now cfg fs ip op txt req reqs hne hi ho hin hgate
      hparse hres
    exact run_failFast hne hi ho hin hgate hparse hres
  · intro parse api budget now cfg fs hch
    rcases run_cases parse api budget now cfg fs with ⟨hfs, _⟩ |
      ⟨ip, op, txt, req, reqs, pkgs, skipped, hi, ho, hin, hp, hres, heq⟩
    · exact absurd hfs hch
    · refine ⟨ip, op, txt, req, reqs, pkgs, skipped, hi, ho, hin, hp, hres, ?_⟩
      rw [heq]
      by_cases hw : (write_requirements_file
          (get_requirements_file_header cfg now) pkgs skipped budget).1 = true <;>
        simp [hw]

theorem C3_abort_before_write_preserves_fs_witness :
    run (fun _ => none) apiDown none "T" cfgStrict fsIn = (.exit 5, fsIn) ∧
    run parseFoo apiDown none "T" cfgStrict fsIn = (.exit 1, fsIn) ∧
    (∃ ip op txt req reqs pkgs skipped,
      configGet cfgDemo "input_file" = some (.vStr ip) ∧
      configGet cfgDemo "output_file" = some (.vStr op) ∧
      fsInOut ip = some txt ∧ parseFoo txt = some (req :: reqs) ∧
      resolveEach apiTwoHashes (ignoreFlag cfgDemo) (req :: reqs) =
        .done pkgs skipped ∧
      (run parseFoo apiTwoHashes (some 0) "T" cfgDemo fsInOut).2 =
        setFile fsInOut op
          (write_requirements_file (get_requirements_file_header cfgDemo "T")
            pkgs skipped (some 0)).2) := by
  refine ⟨?_, ?_, ?_⟩
  · exact C3_abort_before_write_preserves_fs.1 (fun _ => none) apiDown none "T"
      cfgStrict fsIn "requirements.txt" "requirements-locked.txt" "foo==1.0.0\n"
      rfl rfl rfl rfl (Or.inl rfl) (Or.inl rfl)
  · exact C3_abort_before_write_preserves_fs.2.1 parseFoo apiDown none "T"
      cfgStrict fsIn "requirements.txt" "requirements-locked.txt" "foo==1.0.0\n"
      reqFoo [] rfl rfl rfl rfl (Or.inl rfl) rfl rfl
  · exact C3_abort_before_write_preserves_fs.2.2 parseFoo apiTwoHashes (some 0)
      "T" cfgDemo fsInOut (by
        intro he
        exact absurd (congrFun he "requirements-locked.txt") (by decide))

/-- Claim C4: when every requirement of a non-empty manifest resolves,
the run exits 0 and the rendered output holds exactly one record per
requirement, in input order (the resolved packages are the pointwise
resolutions of the requirements), with an empty skip footer. -/
theorem C4_all_resolved_render :
    ∀ parse api now cfg (fs : FS) ip op txt (reqs : List Requirement),
      cfg.isEmpty = false →
      configGet cfg "input_file" = some (.vStr ip) →
      configGet cfg "output_file" = some (.vStr op) →
      fs ip = some txt → (fs op = none ∨ overwriteFlag cfg = true) →
      parse txt = some reqs → reqs ≠ [] →
      (∀ r ∈ reqs, ∃ p, resolveRequirement api r = some p) →
      ∃ pkgs : List Package,
        reqs.map (resolveRequirement api) = pkgs.map some ∧
        pkgs.length = reqs.length ∧
        resolveEach api (ignoreFlag cfg) reqs = .done pkgs [] ∧
        get_requirements_file_footer [] = "" ∧
        run parse api none now cfg fs = (.exit 0, setFile fs op
          (get_requirements_file_header cfg now ++
            String.join (pkgs.map (fun p => p.get_file_lines ++ "\n")))) := by
  intro parse api now cfg fs ip op txt reqs hne hi ho hin hgate hp hreqs hall
  obtain ⟨pkgs, hres, hmap⟩ :=
    @resolveEach_all_resolved api (ignoreFlag cfg) reqs hall
  refine ⟨pkgs, hmap, ?_, hres, rfl, ?_⟩
  · have h2 := congrArg List.length hmap
    simp only [List.length_map] at h2
    exact h2.symm
  · cases reqs with
    | nil => exact absurd rfl hreqs
    | cons req rest =>
      rw [run_done hne hi ho hin hgate hp hres]
      simp [write_requirements_file_none, writeOps_join_no_skips]

theorem C4_all_resolved_render_witness :
    ∃ pkgs : List Package,
      [reqFoo].map (resolveRequirement apiTwoHashes) = pkgs.map some ∧
      pkgs.length = [reqFoo].length ∧
      resolveEach apiTwoHashes (ignoreFlag cfgDemo) [reqFoo] = .done pkgs [] ∧
      get_requirements_file_footer [] = "" ∧
      run parseFoo apiTwoHashes none "T" cfgDemo fsIn =
        (.exit 0, setFile fsIn "requirements-locked.txt"
          (get_requirements_file_header cfgDemo "T" ++
            String.join (pkgs.map (fun p => p.get_file_lines ++ "\n")))) :=
  C4_all_resolved_render parseFoo apiTwoHashes "T" cfgDemo fsIn
    "requirements.txt" "requirements-locked.txt" "foo==1.0.0\n" [reqFoo]
    rfl rfl rfl rfl (Or.inl rfl) rfl (by simp)
    (by
      intro r hr
      rw [List.mem_singleton] at hr
      subst hr
      exact ⟨⟨"foo", "1.0.0", ["aa", "bb"]⟩, rfl⟩)

/-- Claim C5: every `Package` returned by `get_package_details_from_api`
has a non-empty hash list; a response whose artifact list yields zero
digests fails with `IndexError` (the EmptyHashSet failure), which is a
different exception class from the `FileNotFoundError` (MalformedResponse)
raised when the `urls` field is absent. -/
theorem C5_checksums_nonempty :
    (∀ api n v p, get_package_details_from_api api n v = .ok p →
      p.hashes ≠ []) ∧
    (∀ api n v, api n v = .ok (some []) →
      get_package_details_from_api api n v = .error .indexError) ∧
    (ApiError.indexError ≠ ApiError.fileNotFoundError) ∧
    (∀ api n v, api n v = .ok none →
      get_package_details_from_api api n v = .error .fileNotFoundError) := by
  refine ⟨fun api n v p h => get_package_details_ok_hashes h, ?_, by decide, ?_⟩
  · intro api n v hA
    unfold get_package_details_from_api
    rw [hA]
    rfl
  · intro api n v hA
    unfold get_package_details_from_api
    rw [hA]

theorem C5_checksums_nonempty_witness :
    (⟨"foo", "1.0.0", ["aa", "bb"]⟩ : Package).hashes ≠ [] ∧
    get_package_details_from_api (fun _ _ => .ok (some [])) "foo" "1.0.0" =
      .error .indexError ∧
    get_package_details_from_api (fun _ _ => .ok none) "foo" "1.0.0" =
      .error .fileNotFoundError :=
  ⟨C5_checksums_nonempty.1 apiTwoHashes "foo" "1.0.0" _ rfl,
   C5_checksums_nonempty.2.1 (fun _ _ => .ok (some [])) "foo" "1.0.0" rfl,
   C5_checksums_nonempty.2.2.2 (fun _ _ => .ok none) "foo" "1.0.0" rfl⟩

/-- Claim C6: a rendered record is the `name==version` line followed by
exactly one `--hash=sha256:<digest>` continuation per checksum in the
original order, joined by the backslash-newline continuation; re-parsing
the record (splitting at whitespace and dropping the continuation
markers) recovers `name==version` and the hash options in order, and
stripping the 14-character option marker recovers every digest. -/
theorem C6_record_round_trip (n v : String) (hs : List String)
    (hne : hs ≠ []) (hn : sepFree n) (hv : sepFree v)
    (hhs : ∀ h ∈ hs, sepFree h) :
    Package.get_file_lines ⟨n, v, hs⟩ =
      (n ++ "==" ++ v) ++
        String.join (hs.map (fun h => packageNewline ++ "--hash=sha256:" ++ h)) ∧
    recordTokens (Package.get_file_lines ⟨n, v, hs⟩) =
      (n ++ "==" ++ v) :: hs.map (fun h => "--hash=sha256:" ++ h) ∧
    (hs.map (fun h => "--hash=sha256:" ++ h)).map
        (fun t => String.mk (t.data.drop 14)) = hs := by
  refine ⟨get_file_lines_eq n v hs,
    recordTokens_get_file_lines n v hs hn hv hhs, ?_⟩
  rw [List.map_map]
  have hcongr : ∀ h ∈ hs,
      ((fun t : String => String.mk (t.data.drop 14)) ∘
        (fun h => "--hash=sha256:" ++ h)) h = id h := fun h _ => hash_chunk_drop h
  rw [List.map_congr_left hcongr, List.map_id]

theorem C6_record_round_trip_witness :
    Package.get_file_lines ⟨"demo", "1.2.3", ["abc123", "def456"]⟩ =
      ("demo" ++ "==" ++ "1.2.3") ++
        String.join (["abc123", "def456"].map
          (fun h => packageNewline ++ "--hash=sha256:" ++ h)) ∧
    recordTokens (Package.get_file_lines ⟨"demo", "1.2.3", ["abc123", "def456"]⟩) =
      ("demo" ++ "==" ++ "1.2.3") ::
        ["abc123", "def456"].map (fun h => "--hash=sha256:" ++ h) ∧
    (["abc123", "def456"].map (fun h => "--hash=sha256:" ++ h)).map
        (fun t => String.mk (t.data.drop 14)) = ["abc123", "def456"] :=
  C6_record_round_trip "demo" "1.2.3" ["abc123", "def456"]
    (by decide) (by decide) (by decide) (by decide)

/-- Claim C7: `run` checks input existence and then output existence
before any parsing or network activity (the conclusions hold for every
parser and registry); a missing input aborts with `errno.ENOENT` (2), an
existing output with overwrite off aborts with `errno.EEXIST` (17), and
in the latter case the pre-existing output content is untouched. -/
theorem C7_validate_inputs :
    (∀ parse api budget now cfg (fs : FS) ip ofv, cfg.isEmpty = false →
      configGet cfg "input_file" = some (.vStr ip) →
      configGet cfg "output_file" = some ofv → fs ip = none →
      run parse api budget now cfg fs = (.exit 2, fs)) ∧
    (∀ parse api budget now cfg (fs : FS) ip op txt c, cfg.isEmpty = false →
      configGet cfg "input_file" = some (.vStr ip) →
      configGet cfg "output_file" = some (.vStr op) →
      fs ip = some txt → fs op = some c → overwriteFlag cfg = false →
      run parse api budget now cfg fs = (.exit 17, fs) ∧
      (run parse api budget now cfg fs).2 op = some c) := by
  refine ⟨fun parse api budget now cfg fs ip ofv hne hi ho hmiss =>
    run_inputMissing hne hi ho hmiss, ?_⟩
  intro parse api budget now cfg fs ip op txt c hne hi ho hin hout hov
  have h := @run_outputExists parse api budget now cfg fs ip op txt c
    hne hi ho hin hout hov
  exact ⟨h, by rw [h]; exact hout⟩

theorem C7_validate_inputs_witness :
    run parseFoo apiDown none "T" cfgStrict (fun _ => none) =
      (.exit 2, (fun _ => none : FS)) ∧
    (run parseFoo apiDown none "T" cfgStrict fsInOut = (.exit 17, fsInOut) ∧
      (run parseFoo apiDown none "T" cfgStrict fsInOut).2
        "requirements-locked.txt" = some "OLD CONTENT") :=
  ⟨C7_validate_inputs.1 parseFoo apiDown none "T" cfgStrict (fun _ => none)
      "requirements.txt" (.vStr "requirements-locked.txt") rfl rfl rfl rfl,
   C7_validate_inputs.2 parseFoo apiDown none "T" cfgStrict fsInOut
      "requirements.txt" "requirements-locked.txt" "foo==1.0.0\n" "OLD CONTENT"
      rfl rfl rfl rfl rfl rfl⟩

def cfgVerb (b : Bool) : AppConfig := setKey cfgDemo "verbose_mode" (.vBool b)

set_option maxRecDepth 100000 in
/-- Claim C8 counterexample: two runs identical except for
`verbose_mode` produce the same exit status but different output-file
content — the generated header embeds the configuration snapshot,
including the `verbose_mode` value, so the rendered files differ. -/
theorem C8_counterexample_verbose_in_header :
    (run parseFoo apiTwoHashes none "T" (cfgVerb true) fsIn).1 =
      (run parseFoo apiTwoHashes none "T" (cfgVerb false) fsIn).1 ∧
    (run parseFoo apiTwoHashes none "T" (cfgVerb true) fsIn).2
        "requirements-locked.txt" ≠
      (run parseFoo apiTwoHashes none "T" (cfgVerb false) fsIn).2
        "requirements-locked.txt" :=
  ⟨rfl, by decide⟩

/-- Claim C8 (amended): `verbose_mode` never affects control flow — two
runs identical except for its value return the same status, and either
both leave the filesystem untouched, or both truncate the output before
any content lands, or both write the same records and footer after their
respective headers.  The only difference in output content is the
header's configuration snapshot, which records the `verbose_mode`
value. -/
theorem C8_verbose_noninterference :
    ∀ cfg (v1 v2 : ConfigValue) parse api budget now (fs : FS),
      (run parse api budget now (setKey cfg "verbose_mode" v1) fs).1 =
        (run parse api budget now (setKey cfg "verbose_mode" v2) fs).1 ∧
      (((run parse api budget now (setKey cfg "verbose_mode" v1) fs).2 = fs ∧
        (run parse api budget now (setKey cfg "verbose_mode" v2) fs).2 = fs) ∨
       ∃ op, configGet cfg "output_file" = some (.vStr op) ∧
         (((run parse api budget now (setKey cfg "verbose_mode" v1) fs).2 =
             setFile fs op "" ∧
           (run parse api budget now (setKey cfg "verbose_mode" v2) fs).2 =
             setFile fs op "") ∨
          ∃ rest,
            (run parse api budget now (setKey cfg "verbose_mode" v1) fs).2 =
              setFile fs op (get_requirements_file_header
                (setKey cfg "verbose_mode" v1) now ++ rest) ∧
            (run parse api budget now (setKey cfg "verbose_mode" v2) fs).2 =
              setFile fs op (get_requirements_file_header
                (setKey cfg "verbose_mode" v2) now ++ rest))) := by
  intro cfg v1 v2 parse api budget now fs
  have hrw : ∀ v : ConfigValue,
      run parse api budget now (setKey cfg "verbose_mode" v) fs =
        runWith parse api budget
          (get_requirements_file_header (setKey cfg "verbose_mode" v) now)
          false (configGet cfg "input_file") (configGet cfg "output_file")
          (overwriteFlag cfg) (ignoreFlag cfg) fs := by
    intro v
    unfold run
    rw [setKey_isEmpty, configGet_setKey_ne (by decide),
      configGet_setKey_ne (by decide), overwriteFlag_setKey_verbose,
      ignoreFlag_setKey_verbose]
  rw [hrw v1, hrw v2]
  exact runWith_hdr_agree parse api budget _ _ false
    (configGet cfg "input_file") (configGet cfg "output_file")
    (overwriteFlag cfg) (ignoreFlag cfg) fs

/-- Claim C9: constructing the locker with an empty (falsy) configuration
raises `ValueError`; `run` raises a `KeyError` naming `input_file` or
`output_file` when the key is missing, for every filesystem, parser and
registry (so before touching any file or the network) and leaving the
filesystem unchanged; the optional `verbose_mode`, `overwrite_mode` and
`ignore_errors` keys default to false when absent. -/
theorem C9_config_preconditions :
    locker_init [] = .error "Configuration values not supplied" ∧
    (∀ parse api budget now cfg (fs : FS), cfg.isEmpty = false →
      configGet cfg "input_file" = none →
      run parse api budget now cfg fs = (.keyError "input_file", fs)) ∧
    (∀ parse api budget now cfg (fs : FS) ifv, cfg.isEmpty = false →
      configGet cfg "input_file" = some ifv →
      configGet cfg "output_file" = none →
      run parse api budget now cfg fs = (.keyError "output_file", fs)) ∧
    (∀ cfg, configGet cfg "verbose_mode" = none → verboseFlag cfg = false) ∧
    (∀ cfg, configGet cfg "overwrite_mode" = none → overwriteFlag cfg = false) ∧
    (∀ cfg, configGet cfg "ignore_errors" = none → ignoreFlag cfg = false) := by
  refine ⟨rfl, ?_, ?_, ?_, ?_, ?_⟩
  · intro parse api budget now cfg fs hne hi
    unfold run runWith
    simp [hne, hi]
  · intro parse api budget now cfg fs ifv hne hi ho
    unfold run runWith
    simp [hne, hi, ho]
  · intro cfg h
    unfold verboseFlag
    rw [h]
    rfl
  · intro cfg h
    unfold overwriteFlag
    rw [h]
    rfl
  · intro cfg h
    unfold ignoreFlag
    rw [h]
    rfl

theorem C9_config_preconditions_witness :
    run parseFoo apiDown none "T" [("output_file", .vStr "o")] fsIn =
      (.keyError "input_file", fsIn) ∧
    run parseFoo apiDown none "T" [("input_file", .vStr "i")] fsIn =
      (.keyError "output_file", fsIn) ∧
    verboseFlag cfgStrict = false ∧ overwriteFlag cfgStrict = false ∧
    ignoreFlag cfgStrict = false :=
  ⟨C9_config_preconditions.2.1 parseFoo apiDown none "T"
      [("output_file", .vStr "o")] fsIn rfl rfl,
   C9_config_preconditions.2.2.1 parseFoo apiDown none "T"
      [("input_file", .vStr "i")] fsIn (.vStr "i") rfl rfl rfl,
   C9_config_preconditions.2.2.2.1 cfgStrict rfl,
   C9_config_preconditions.2.2.2.2.1 cfgStrict rfl,
   C9_config_preconditions.2.2.2.2.2 cfgStrict rfl⟩

/-- Claim C10: the per-artifact digest extraction is unguarded, so an
artifact entry lacking its `digests`/`sha256` key makes
`get_package_details_from_api` raise the unclassified `KeyError` — an
exception class distinct from the documented NotFound/network
(`networkError`), MalformedResponse (`fileNotFoundError`) and
EmptyHashSet (`indexError`) failures — and the resolution loop treats it
like any resolution failure: fail-fast abort when `ignore_errors` is
unset, skip-and-record otherwise. -/
theorem C10_unguarded_digest_lookup :
    (∀ api n v arts, api n v = .ok (some arts) → none ∈ arts →
      get_package_details_from_api api n v = .error .keyError) ∧
    (ApiError.keyError ≠ .networkError ∧ ApiError.keyError ≠ .fileNotFoundError ∧
      ApiError.keyError ≠ .indexError) ∧
    (∀ api (req : Requirement) rest spec,
      req.specs.head? = some spec →
      get_package_details_from_api api req.name spec.2 = .error .keyError →
      resolveEach api false (req :: rest) = .failFast ∧
      resolveEach api true (req :: rest) =
        (resolveEach api true rest).withSkip (req.name ++ "==" ++ spec.2)) := by
  refine ⟨?_, by decide, ?_⟩
  · intro api n v arts hA hmem
    unfold get_package_details_from_api
    rw [hA]
    dsimp only
    rw [collectDigests_mem_none hmem]
  · intro api req rest spec hs hg
    constructor
    · simp [resolveEach, hs, hg]
    · simp [resolveEach, hs, hg]

theorem C10_unguarded_digest_lookup_witness :
    get_package_details_from_api apiNoDigest "foo" "1.0.0" =
      .error .keyError ∧
    (resolveEach apiNoDigest false [reqFoo] = .failFast ∧
     resolveEach apiNoDigest true [reqFoo] =
       (resolveEach apiNoDigest true []).withSkip ("foo" ++ "==" ++ "1.0.0")) :=
  ⟨C10_unguarded_digest_lookup.1 apiNoDigest "foo" "1.0.0" [some "aa", none]
      rfl (by decide),
   C10_unguarded_digest_lookup.2.2 apiNoDigest reqFoo [] ("==", "1.0.0") rfl
     (C10_unguarded_digest_lookup.1 apiNoDigest "foo" "1.0.0" [some "aa", none]
       rfl (by decide))⟩
